/-
Verification of the consumer-side input event dispatch core
(frameworks/base, core/jni/android_view_InputEventReceiver.cpp).

The C++ class NativeInputEventReceiver is embedded shallowly as a pure
state-transition system.  External collaborators are modelled as oracles:

* the transport's sendFinishedSignal result sequence is the list `sendResp`
  consumed one entry per call (OK / WOULD_BLOCK / hard error), and every
  attempted send is recorded in `sendLog` together with its result;
* the host readiness loop (Looper) is modelled by `looperLog` (the sequence
  of addFd/removeFd calls the receiver issues) plus `looperMask` (the
  loop's current registration for the channel's fd; it is also cleared by
  the driver when a callback returns 0, mirroring Looper semantics);
* the managed handler is modelled by `callLog` (the JNI callbacks invoked)
  together with per-event oracles for "the callback threw" and "the
  caller-facing event object could not be built", and a per-call oracle
  `alive` for whether the weak reference to the receiver still resolves;
* each result of InputConsumer::consume is an entry of a `ConsumeResult`
  list: a decoded event, WOULD_BLOCK (with the transport's pending-batch
  report), or a hard error status.  Per the transport contract the motion
  sub-kind outputs (`motionEventType`, `touchMoveNum`, `flag`) only carry
  information on a successfully decoded event, so they are fields of the
  decoded-event alternative.

All machine integers involved are small non-negative values (fd event
masks, sequence numbers), modelled as Nat; the motion sub-kind ints are
modelled as Int because the sentinel initial signature is (-1, -1).
-/
import Mathlib

namespace InputEventReceiver

/-- status_t values that occur in this file.  `OTHER` covers any further
error code. -/
inductive Status where
  | OK : Status
  | WOULD_BLOCK : Status
  | DEAD_OBJECT : Status
  | NO_MEMORY : Status
  | OTHER : Int → Status
deriving DecidableEq, Repr

/-- ALOOPER event bits (utils/Looper.h). -/
def ALOOPER_EVENT_INPUT : Nat := 1

def ALOOPER_EVENT_OUTPUT : Nat := 2

def ALOOPER_EVENT_ERROR : Nat := 4

def ALOOPER_EVENT_HANGUP : Nat := 8

/-- struct Finish: one acknowledgement awaiting transmission. -/
structure Finish where
  seq : Nat
  handled : Bool
deriving DecidableEq, Repr

/-- The member state of NativeInputEventReceiver. -/
structure ReceiverState where
  mBatchedInputEventPending : Bool
  mFdEvents : Nat
  mFinishQueue : List Finish
  mLastMotionEventType : Int
  mLastTouchMoveNum : Int
deriving DecidableEq, Repr

/-- One call of the receiver into the host readiness loop. -/
inductive LooperOp where
  | addFd : Nat → LooperOp
  | removeFd : LooperOp
deriving DecidableEq, Repr

/-- One JNI callback into the managed InputEventReceiver object. -/
inductive JCall where
  | dispatchInputEvent : Nat → JCall
  | dispatchMotionEventInfo : Int → Int → JCall
  | onFocusEvent : Bool → Bool → JCall
  | onBatchedInputEventPending : Int → JCall
deriving DecidableEq, Repr

/-- One attempted InputConsumer::sendFinishedSignal call, with the result
the transport returned for it. -/
structure SendAttempt where
  seq : Nat
  handled : Bool
  result : Status
deriving DecidableEq, Repr

/-- The whole world: receiver state plus the oracles and observation logs
for the external collaborators. -/
structure Sys where
  recv : ReceiverState
  sendResp : List Status
  sendLog : List SendAttempt
  callLog : List JCall
  looperLog : List LooperOp
  looperMask : Option Nat
deriving DecidableEq, Repr

/-- InputConsumer::sendFinishedSignal: consumes the next transport
response (OK once the oracle list is exhausted) and records the attempt. -/
def sendFinishedSignal (seq : Nat) (handled : Bool) (s : Sys) : Status × Sys :=
  (s.sendResp.headD Status.OK,
    { s with
      sendResp := s.sendResp.tail,
      sendLog := s.sendLog ++ [SendAttempt.mk seq handled (s.sendResp.headD Status.OK)] })

/-- The acknowledgements that actually reached the transport, in
transport order. -/
def sentList (s : Sys) : List (Nat × Bool) :=
  s.sendLog.filterMap (fun a => if a.result = Status.OK then some (a.seq, a.handled) else none)

/-- NativeInputEventReceiver::setFdEvents (lines 154-164). -/
def setFdEvents (events : Nat) (s : Sys) : Sys :=
  if s.recv.mFdEvents ≠ events then
    let s1 : Sys := { s with recv := { s.recv with mFdEvents := events } }
    if events ≠ 0 then
      { s1 with looperLog := s1.looperLog ++ [LooperOp.addFd events], looperMask := some events }
    else
      { s1 with looperLog := s1.looperLog ++ [LooperOp.removeFd], looperMask := none }
  else s

/-- NativeInputEventReceiver::initialize (lines 114-117). -/
def initReceiver (s : Sys) : Sys :=
  setFdEvents ALOOPER_EVENT_INPUT s

/-- NativeInputEventReceiver::dispose (lines 119-125). -/
def dispose (s : Sys) : Sys :=
  setFdEvents 0 s

/-- NativeInputEventReceiver::finishInputEvent (lines 127-152). -/
def finishInputEvent (seq : Nat) (handled : Bool) (s : Sys) : Status × Sys :=
  let p := sendFinishedSignal seq handled s
  if p.1 = Status.OK then p
  else if p.1 = Status.WOULD_BLOCK then
    let q := p.2.recv.mFinishQueue ++ [Finish.mk seq handled]
    let s1 : Sys := { p.2 with recv := { p.2.recv with mFinishQueue := q } }
    let s2 := if q.length = 1 then
        setFdEvents (ALOOPER_EVENT_INPUT ||| ALOOPER_EVENT_OUTPUT) s1
      else s1
    (Status.OK, s2)
  else p

/-- Result of the write-readiness flush loop. -/
inductive FlushRes where
  | allSent : FlushRes
  | stopped : Status → FlushRes
deriving DecidableEq, Repr

/-- The loop of handleEvent's ALOOPER_EVENT_OUTPUT branch (lines 186-211):
attempts each queued Finish in order and stops at the first one the
transport does not accept, returning the not-yet-sent suffix (the C++
removeItemsAt(0, i) keeps exactly that suffix). -/
def flushLoop : List Finish → Sys → FlushRes × List Finish × Sys
  | [], s => (FlushRes.allSent, [], s)
  | f :: rest, s =>
    let p := sendFinishedSignal f.seq f.handled s
    if p.1 = Status.OK then flushLoop rest p.2
    else (FlushRes.stopped p.1, f :: rest, p.2)

/-- handleEvent's ALOOPER_EVENT_OUTPUT branch (lines 185-219).  The Nat
result is the LooperCallback return value: 1 keeps the registration,
0 removes it. -/
def handleOutput (s : Sys) : Nat × Sys :=
  let r := flushLoop s.recv.mFinishQueue s
  match r.1 with
  | FlushRes.allSent =>
    (1, setFdEvents ALOOPER_EVENT_INPUT
      { r.2.2 with recv := { r.2.2.recv with mFinishQueue := [] } })
  | FlushRes.stopped st =>
    let s1 : Sys := { r.2.2 with recv := { r.2.2.recv with mFinishQueue := r.2.1 } }
    if st = Status.WOULD_BLOCK then (1, s1) else (0, s1)

/-- The decoded-event kinds this file dispatches on (AINPUT_EVENT_TYPE_KEY,
MOTION, FOCUS); for motion events, whether the action has
AMOTION_EVENT_ACTION_MOVE set. -/
inductive InputEventT where
  | key : InputEventT
  | motion : Bool → InputEventT
  | focus : Bool → Bool → InputEventT
deriving DecidableEq, Repr

/-- One successfully decoded event as consumeEvents sees it: the sequence
number, the typed event, the motion sub-kind outputs of
InputConsumer::consume, and the handler-boundary oracles for this event
(does building the caller-facing object fail, does the dispatch callback
throw). -/
structure ConsumeItem where
  seq : Nat
  event : InputEventT
  motionEventType : Int
  touchMoveNum : Int
  flag : Bool
  buildFails : Bool
  dispatchThrows : Bool
deriving DecidableEq, Repr

/-- One result of InputConsumer::consume.  `wouldBlock` carries the
transport's pending-batch report (hasPendingBatch, getPendingBatchSource)
and the oracle for whether onBatchedInputEventPending throws; `err`
covers statuses other than OK and WOULD_BLOCK. -/
inductive ConsumeResult where
  | ok : ConsumeItem → ConsumeResult
  | wouldBlock : Bool → Int → Bool → ConsumeResult
  | err : Status → ConsumeResult
deriving DecidableEq, Repr

/-- The motion-info side channel of consumeEvents (lines 263-270): when the
consume call reported a motion sub-kind (`flag`) that differs from the
remembered Last-Motion-Signature, notify dispatchMotionEventInfo and
update the signature. -/
def motionInfoStep (item : ConsumeItem) (s : Sys) : Sys :=
  if item.flag = true ∧ (s.recv.mLastMotionEventType ≠ item.motionEventType ∨
      s.recv.mLastTouchMoveNum ≠ item.touchMoveNum) then
    { s with
      callLog := s.callLog ++
        [JCall.dispatchMotionEventInfo item.motionEventType item.touchMoveNum],
      recv := { s.recv with
        mLastMotionEventType := item.motionEventType,
        mLastTouchMoveNum := item.touchMoveNum } }
  else s

/-- The skip-state auto-finish of consumeEvents (lines 377-379): a direct
sendFinishedSignal(seq, false) whose result is discarded. -/
def autoFinish (seq : Nat) (s : Sys) : Sys :=
  (sendFinishedSignal seq false s).2

/-- The for(;;) loop of NativeInputEventReceiver::consumeEvents
(lines 242-380), one recursive step per InputConsumer::consume result.
Arguments after the result list: the skip-state flag, the *outConsumedBatch
accumulator, and the world.  Returns none only when the oracle list is
exhausted without the loop terminating (the C++ loop would consume
further transport results); every theorem below works with runs that do
terminate.  The weak-reference resolution of lines 254-261 is modelled by
`alive`: the reference is resolved during the first iteration and kept,
so a dead receiver makes the call return DEAD_OBJECT at its first
consume result, and a live one never fails this check. -/
def consumeLoop (alive hasOut : Bool) :
    List ConsumeResult → Bool → Bool → Sys → Option (Status × Bool × Sys)
  | [], _, _, _ => none
  | ConsumeResult.err st :: _, _, consumed, s =>
    if alive = false then some (Status.DEAD_OBJECT, consumed, s)
    else some (st, consumed, s)
  | ConsumeResult.wouldBlock pending source throws :: _, skip, consumed, s =>
    if alive = false then some (Status.DEAD_OBJECT, consumed, s)
    else
      if skip = false ∧ s.recv.mBatchedInputEventPending = false ∧ pending = true then
        let s1 : Sys := { s with
          recv := { s.recv with mBatchedInputEventPending := true },
          callLog := s.callLog ++ [JCall.onBatchedInputEventPending source] }
        let s2 := if throws then
            { s1 with recv := { s1.recv with mBatchedInputEventPending := false } }
          else s1
        some (Status.OK, consumed, s2)
      else some (Status.OK, consumed, s)
  | ConsumeResult.ok item :: rest, skip, consumed, s =>
    if alive = false then some (Status.DEAD_OBJECT, consumed, s)
    else
      let s1 := motionInfoStep item s
      if skip then
        consumeLoop alive hasOut rest true consumed (autoFinish item.seq s1)
      else
        match item.event with
        | InputEventT.focus hasFocus inTouchMode =>
          let s2 : Sys := { s1 with
            callLog := s1.callLog ++ [JCall.onFocusEvent hasFocus inTouchMode] }
          some (Status.OK, consumed, (finishInputEvent item.seq true s2).2)
        | InputEventT.key =>
          if item.buildFails then
            consumeLoop alive hasOut rest true consumed (autoFinish item.seq s1)
          else
            let s2 : Sys := { s1 with
              callLog := s1.callLog ++ [JCall.dispatchInputEvent item.seq] }
            if item.dispatchThrows then
              consumeLoop alive hasOut rest true consumed (autoFinish item.seq s2)
            else
              consumeLoop alive hasOut rest false consumed s2
        | InputEventT.motion isMove =>
          let consumed1 := consumed || (isMove && hasOut)
          if item.buildFails then
            consumeLoop alive hasOut rest true consumed1 (autoFinish item.seq s1)
          else
            let s2 : Sys := { s1 with
              callLog := s1.callLog ++ [JCall.dispatchInputEvent item.seq] }
            if item.dispatchThrows then
              consumeLoop alive hasOut rest true consumed1 (autoFinish item.seq s2)
            else
              consumeLoop alive hasOut rest false consumed1 s2

/-- Clearing of mBatchedInputEventPending done at the start of a
consumeBatches call (lines 233-235). -/
def clearPending (s : Sys) : Sys :=
  { s with recv := { s.recv with mBatchedInputEventPending := false } }

/-- NativeInputEventReceiver::consumeEvents (lines 226-381). -/
def consumeEvents (consumeBatches alive hasOut : Bool)
    (results : List ConsumeResult) (s : Sys) : Option (Status × Bool × Sys) :=
  consumeLoop alive hasOut results false false
    (if consumeBatches then clearPending s else s)

/-- NativeInputEventReceiver::handleEvent (lines 166-224).  The Nat of the
result is the LooperCallback return value (1 keep, 0 remove). -/
def handleEvent (events : Nat) (alive : Bool) (results : List ConsumeResult)
    (s : Sys) : Option (Nat × Sys) :=
  if events &&& (ALOOPER_EVENT_ERROR ||| ALOOPER_EVENT_HANGUP) ≠ 0 then some (0, s)
  else if events &&& ALOOPER_EVENT_INPUT ≠ 0 then
    (consumeEvents false alive false results s).map
      (fun out => (if out.1 = Status.OK ∨ out.1 = Status.NO_MEMORY then 1 else 0, out.2.2))
  else if events &&& ALOOPER_EVENT_OUTPUT ≠ 0 then
    some (handleOutput s)
  else
    some (1, s)

/-- One public operation on the receiver, with the per-call oracle data it
needs. -/
inductive Op where
  | opFinish : Nat → Bool → Op
  | opHandle : Nat → Bool → List ConsumeResult → Op
  | opConsume : Bool → Bool → Bool → List ConsumeResult → Op
  | opDispose : Op
deriving DecidableEq, Repr

/-- Applying one public operation.  For opHandle, the driver also applies
Looper's reaction to the callback's return value: returning 0 makes the
loop drop the registration. -/
def step (o : Op) (s : Sys) : Sys :=
  match o with
  | Op.opFinish seq handled => (finishInputEvent seq handled s).2
  | Op.opHandle events alive results =>
    match handleEvent events alive results s with
    | some p => if p.1 = 0 then { p.2 with looperMask := none } else p.2
    | none => s
  | Op.opConsume cb alive hasOut results =>
    match consumeEvents cb alive hasOut results s with
    | some out => out.2.2
    | none => s
  | Op.opDispose => dispose s

/-- Running a sequence of public operations. -/
def run : List Op → Sys → Sys
  | [], s => s
  | o :: rest, s => run rest (step o s)

/-- A freshly constructed receiver (constructor, lines 98-107) with a given
transport response oracle: pending flag false, mFdEvents 0, empty finish
queue, Last-Motion-Signature (-1, -1). -/
def mkSys (resp : List Status) : Sys :=
  { recv :=
      { mBatchedInputEventPending := false
        mFdEvents := 0
        mFinishQueue := []
        mLastMotionEventType := -1
        mLastTouchMoveNum := -1 }
    sendResp := resp
    sendLog := []
    callLog := []
    looperLog := []
    looperMask := none }

/-- A constructed and initialized receiver. -/
def startSys (resp : List Status) : Sys :=
  initReceiver (mkSys resp)

/-- Number of removeFd calls issued to the readiness loop. -/
def countRemoveFd (l : List LooperOp) : Nat :=
  l.countP (fun o => match o with | LooperOp.removeFd => true | _ => false)

/-- Whether the readiness loop currently has write interest registered for
the channel's descriptor. -/
def hasWriteInterest (s : Sys) : Bool :=
  match s.looperMask with
  | some m => m &&& ALOOPER_EVENT_OUTPUT != 0
  | none => false

/-- The spec's Acknowledgement Queue invariant, at the level of the
readiness loop's actual registration. -/
def queueLooperInv (s : Sys) : Prop :=
  s.recv.mFinishQueue ≠ [] ↔ hasWriteInterest s = true

instance (s : Sys) : Decidable (queueLooperInv s) := by
  unfold queueLooperInv
  infer_instance

/-- The Acknowledgement Queue invariant at the level of the receiver's own
registered interest mask (mFdEvents). -/
def queueFdInv (s : Sys) : Prop :=
  s.recv.mFinishQueue = [] ↔ s.recv.mFdEvents &&& ALOOPER_EVENT_OUTPUT = 0

@[simp]
theorem setFdEvents_fd (e : Nat) (s : Sys) : (setFdEvents e s).recv.mFdEvents = e := by
  unfold setFdEvents
  split_ifs with h1 h2 <;> simp_all

@[simp]
theorem setFdEvents_queue (e : Nat) (s : Sys) :
    (setFdEvents e s).recv.mFinishQueue = s.recv.mFinishQueue := by
  unfold setFdEvents
  split_ifs <;> rfl

@[simp]
theorem setFdEvents_pending (e : Nat) (s : Sys) :
    (setFdEvents e s).recv.mBatchedInputEventPending = s.recv.mBatchedInputEventPending := by
  unfold setFdEvents
  split_ifs <;> rfl

@[simp]
theorem setFdEvents_sendLog (e : Nat) (s : Sys) : (setFdEvents e s).sendLog = s.sendLog := by
  unfold setFdEvents
  split_ifs <;> rfl

@[simp]
theorem setFdEvents_sendResp (e : Nat) (s : Sys) : (setFdEvents e s).sendResp = s.sendResp := by
  unfold setFdEvents
  split_ifs <;> rfl

@[simp]
theorem setFdEvents_callLog (e : Nat) (s : Sys) : (setFdEvents e s).callLog = s.callLog := by
  unfold setFdEvents
  split_ifs <;> rfl

theorem setFdEvents_log (e : Nat) (s : Sys) :
    (setFdEvents e s).looperLog =
      if s.recv.mFdEvents ≠ e then
        (if e ≠ 0 then s.looperLog ++ [LooperOp.addFd e]
         else s.looperLog ++ [LooperOp.removeFd])
      else s.looperLog := by
  unfold setFdEvents
  split_ifs <;> rfl

theorem length_append_singleton_eq_one (l : List Finish) (f : Finish) :
    (l ++ [f]).length = 1 ↔ l = [] := by
  cases l <;> simp

@[simp]
theorem sentList_append_entry (s : Sys) (a : SendAttempt) :
    sentList { s with sendLog := s.sendLog ++ [a] } =
      sentList s ++ (if a.result = Status.OK then [(a.seq, a.handled)] else []) := by
  unfold sentList
  split_ifs with h <;> simp [List.filterMap_append, h]

@[simp]
theorem motionInfoStep_queue (item : ConsumeItem) (s : Sys) :
    (motionInfoStep item s).recv.mFinishQueue = s.recv.mFinishQueue := by
  unfold motionInfoStep
  split_ifs <;> rfl

@[simp]
theorem motionInfoStep_fd (item : ConsumeItem) (s : Sys) :
    (motionInfoStep item s).recv.mFdEvents = s.recv.mFdEvents := by
  unfold motionInfoStep
  split_ifs <;> rfl

@[simp]
theorem motionInfoStep_pending (item : ConsumeItem) (s : Sys) :
    (motionInfoStep item s).recv.mBatchedInputEventPending =
      s.recv.mBatchedInputEventPending := by
  unfold motionInfoStep
  split_ifs <;> rfl

@[simp]
theorem motionInfoStep_sendLog (item : ConsumeItem) (s : Sys) :
    (motionInfoStep item s).sendLog = s.sendLog := by
  unfold motionInfoStep
  split_ifs <;> rfl

@[simp]
theorem autoFinish_recv (seq : Nat) (s : Sys) : (autoFinish seq s).recv = s.recv := rfl

@[simp]
theorem autoFinish_sendLog (seq : Nat) (s : Sys) :
    (autoFinish seq s).sendLog =
      s.sendLog ++ [SendAttempt.mk seq false (s.sendResp.headD Status.OK)] := rfl

theorem finishInputEvent_status (seq : Nat) (handled : Bool) (s : Sys) :
    (finishInputEvent seq handled s).1 =
      (if s.sendResp.headD Status.OK = Status.WOULD_BLOCK then Status.OK
       else s.sendResp.headD Status.OK) := by
  unfold finishInputEvent sendFinishedSignal
  generalize s.sendResp.headD Status.OK = r
  rcases r with _ | _ | _ | _ | i <;> simp

theorem finishInputEvent_queue (seq : Nat) (handled : Bool) (s : Sys) :
    (finishInputEvent seq handled s).2.recv.mFinishQueue =
      (if s.sendResp.headD Status.OK = Status.WOULD_BLOCK
       then s.recv.mFinishQueue ++ [Finish.mk seq handled]
       else s.recv.mFinishQueue) := by
  unfold finishInputEvent sendFinishedSignal
  generalize s.sendResp.headD Status.OK = r
  rcases r with _ | _ | _ | _ | i <;>
    [skip; by_cases hq : s.recv.mFinishQueue = []; skip; skip; skip] <;>
    simp_all [length_append_singleton_eq_one]

theorem finishInputEvent_fd (seq : Nat) (handled : Bool) (s : Sys) :
    (finishInputEvent seq handled s).2.recv.mFdEvents =
      (if s.sendResp.headD Status.OK = Status.WOULD_BLOCK ∧ s.recv.mFinishQueue = []
       then ALOOPER_EVENT_INPUT ||| ALOOPER_EVENT_OUTPUT
       else s.recv.mFdEvents) := by
  unfold finishInputEvent sendFinishedSignal
  generalize s.sendResp.headD Status.OK = r
  rcases r with _ | _ | _ | _ | i <;>
    [skip; by_cases hq : s.recv.mFinishQueue = []; skip; skip; skip] <;>
    simp_all [length_append_singleton_eq_one]

theorem finishInputEvent_sendLog (seq : Nat) (handled : Bool) (s : Sys) :
    (finishInputEvent seq handled s).2.sendLog =
      s.sendLog ++ [SendAttempt.mk seq handled (s.sendResp.headD Status.OK)] := by
  unfold finishInputEvent sendFinishedSignal
  generalize s.sendResp.headD Status.OK = r
  rcases r with _ | _ | _ | _ | i <;>
    [skip; by_cases hq : s.recv.mFinishQueue = []; skip; skip; skip] <;>
    simp_all [length_append_singleton_eq_one]

theorem finishInputEvent_callLog (seq : Nat) (handled : Bool) (s : Sys) :
    (finishInputEvent seq handled s).2.callLog = s.callLog := by
  unfold finishInputEvent sendFinishedSignal
  generalize s.sendResp.headD Status.OK = r
  rcases r with _ | _ | _ | _ | i <;>
    [skip; by_cases hq : s.recv.mFinishQueue = []; skip; skip; skip] <;>
    simp_all [length_append_singleton_eq_one]

theorem finishInputEvent_pending (seq : Nat) (handled : Bool) (s : Sys) :
    (finishInputEvent seq handled s).2.recv.mBatchedInputEventPending =
      s.recv.mBatchedInputEventPending := by
  unfold finishInputEvent sendFinishedSignal
  generalize s.sendResp.headD Status.OK = r
  rcases r with _ | _ | _ | _ | i <;>
    [skip; by_cases hq : s.recv.mFinishQueue = []; skip; skip; skip] <;>
    simp_all [length_append_singleton_eq_one]

theorem finishInputEvent_looperLog (seq : Nat) (handled : Bool) (s : Sys) :
    (finishInputEvent seq handled s).2.looperLog =
      (if s.sendResp.headD Status.OK = Status.WOULD_BLOCK ∧ s.recv.mFinishQueue = [] ∧
          s.recv.mFdEvents ≠ (ALOOPER_EVENT_INPUT ||| ALOOPER_EVENT_OUTPUT)
       then s.looperLog ++ [LooperOp.addFd (ALOOPER_EVENT_INPUT ||| ALOOPER_EVENT_OUTPUT)]
       else s.looperLog) := by
  unfold finishInputEvent sendFinishedSignal
  generalize s.sendResp.headD Status.OK = r
  rcases r with _ | _ | _ | _ | i <;>
    [skip;
     by_cases hq : s.recv.mFinishQueue = [] <;>
       [by_cases hfd : s.recv.mFdEvents = (ALOOPER_EVENT_INPUT ||| ALOOPER_EVENT_OUTPUT);
        skip];
     skip; skip; skip] <;>
    simp_all [length_append_singleton_eq_one, setFdEvents_log, ALOOPER_EVENT_INPUT,
      ALOOPER_EVENT_OUTPUT]

theorem finishInputEvent_inv (seq : Nat) (handled : Bool) (s : Sys)
    (h : queueFdInv s) : queueFdInv (finishInputEvent seq handled s).2 := by
  unfold queueFdInv at h ⊢
  rw [finishInputEvent_queue, finishInputEvent_fd]
  by_cases hwb : s.sendResp.headD Status.OK = Status.WOULD_BLOCK
  · by_cases hq : s.recv.mFinishQueue = [] <;> simp_all [ALOOPER_EVENT_INPUT,
      ALOOPER_EVENT_OUTPUT]
  · simp_all

@[simp]
theorem sendFinishedSignal_fst (seq : Nat) (handled : Bool) (s : Sys) :
    (sendFinishedSignal seq handled s).1 = s.sendResp.headD Status.OK := rfl

@[simp]
theorem sendFinishedSignal_recv (seq : Nat) (handled : Bool) (s : Sys) :
    (sendFinishedSignal seq handled s).2.recv = s.recv := rfl

@[simp]
theorem sendFinishedSignal_resp (seq : Nat) (handled : Bool) (s : Sys) :
    (sendFinishedSignal seq handled s).2.sendResp = s.sendResp.tail := rfl

@[simp]
theorem sendFinishedSignal_looperLog (seq : Nat) (handled : Bool) (s : Sys) :
    (sendFinishedSignal seq handled s).2.looperLog = s.looperLog := rfl

theorem sendFinishedSignal_sentList (seq : Nat) (handled : Bool) (s : Sys) :
    sentList (sendFinishedSignal seq handled s).2 =
      sentList s ++
        (if s.sendResp.headD Status.OK = Status.OK then [(seq, handled)] else []) := by
  unfold sentList sendFinishedSignal
  generalize s.sendResp.headD Status.OK = r
  split_ifs with h <;> simp [List.filterMap_append, h]

theorem flushLoop_recv : ∀ (q : List Finish) (s : Sys), (flushLoop q s).2.2.recv = s.recv := by
  intro q
  induction q with
  | nil => intro s; rfl
  | cons f rest ih =>
    intro s
    rw [flushLoop]
    by_cases h : s.sendResp.headD Status.OK = Status.OK <;>
      simp only [sendFinishedSignal_fst, h, if_true, if_false, ite_true, ite_false]
    · rw [ih]
      rfl
    · rfl

theorem flushLoop_looperLog : ∀ (q : List Finish) (s : Sys),
    (flushLoop q s).2.2.looperLog = s.looperLog := by
  intro q
  induction q with
  | nil => intro s; rfl
  | cons f rest ih =>
    intro s
    rw [flushLoop]
    by_cases h : s.sendResp.headD Status.OK = Status.OK <;>
      simp only [sendFinishedSignal_fst, h, if_true, if_false, ite_true, ite_false]
    · rw [ih]
      rfl
    · rfl

theorem flushLoop_stopped (q : List Finish) (s : Sys) (st : Status)
    (h : (flushLoop q s).1 = FlushRes.stopped st) :
    (flushLoop q s).2.1 ≠ [] ∧ q ≠ [] := by
  induction q generalizing s with
  | nil => simp [flushLoop] at h
  | cons f rest ih =>
    rw [flushLoop] at h ⊢
    by_cases hok : s.sendResp.headD Status.OK = Status.OK <;>
      simp only [sendFinishedSignal_fst, hok, ite_true, ite_false] at h ⊢
    · exact ⟨(ih _ h).1, by simp⟩
    · exact ⟨by simp, by simp⟩

theorem flushLoop_prefix : ∀ (q : List Finish) (s : Sys), ∃ k, k ≤ q.length ∧
    (flushLoop q s).2.1 = q.drop k ∧
    sentList (flushLoop q s).2.2 =
      sentList s ++ (q.take k).map (fun f => (f.seq, f.handled)) ∧
    ((flushLoop q s).1 = FlushRes.allSent → k = q.length) := by
  intro q
  induction q with
  | nil => intro s; exact ⟨0, by simp [flushLoop]⟩
  | cons f rest ih =>
    intro s
    rw [flushLoop]
    by_cases hok : s.sendResp.headD Status.OK = Status.OK <;>
      simp only [sendFinishedSignal_fst, hok, ite_true, ite_false]
    · obtain ⟨k, hk, hdrop, hsent, hall⟩ := ih (sendFinishedSignal f.seq f.handled s).2
      refine ⟨k + 1, by simpa using Nat.succ_le_succ hk, by simpa using hdrop, ?_, ?_⟩
      · rw [hsent, sendFinishedSignal_sentList, hok]
        simp [List.take_succ_cons]
      · intro hfin
        simp [hall hfin]
    · refine ⟨0, by simp, rfl, ?_, by simp⟩
      rw [sendFinishedSignal_sentList, if_neg hok]
      simp

theorem flushLoop_allOK : ∀ (q : List Finish) (s : Sys),
    s.sendResp.take q.length = List.replicate q.length Status.OK →
    (flushLoop q s).1 = FlushRes.allSent ∧ (flushLoop q s).2.1 = [] ∧
    sentList (flushLoop q s).2.2 = sentList s ++ q.map (fun f => (f.seq, f.handled)) := by
  intro q
  induction q with
  | nil => intro s _; simp [flushLoop]
  | cons f rest ih =>
    intro s htake
    rcases hs : s.sendResp with _ | ⟨st, resp1⟩
    · rw [hs] at htake
      simp at htake
    · rw [hs] at htake
      simp only [List.length_cons, List.replicate_succ, List.take_succ_cons,
        List.cons.injEq] at htake
      have hok : s.sendResp.headD Status.OK = Status.OK := by rw [hs, htake.1]; rfl
      rw [flushLoop]
      simp only [sendFinishedSignal_fst, hok, ite_true]
      have hresp : (sendFinishedSignal f.seq f.handled s).2.sendResp = resp1 := by
        rw [sendFinishedSignal_resp, hs]
        rfl
      obtain ⟨h1, h2, h3⟩ := ih (sendFinishedSignal f.seq f.handled s).2
        (by rw [hresp]; exact htake.2)
      refine ⟨h1, h2, ?_⟩
      rw [h3, sendFinishedSignal_sentList, hok]
      simp

theorem flushLoop_wb : ∀ (i : Nat) (q : List Finish) (s : Sys), i < q.length →
    s.sendResp.take i = List.replicate i Status.OK →
    (s.sendResp.drop i).headD Status.OK = Status.WOULD_BLOCK →
    (flushLoop q s).1 = FlushRes.stopped Status.WOULD_BLOCK ∧
    (flushLoop q s).2.1 = q.drop i ∧
    sentList (flushLoop q s).2.2 =
      sentList s ++ (q.take i).map (fun f => (f.seq, f.handled)) := by
  intro i
  induction i with
  | zero =>
    intro q s hlen _ hwb
    rcases q with _ | ⟨f, rest⟩
    · simp at hlen
    · simp only [List.drop_zero] at hwb
      have hne : s.sendResp.headD Status.OK ≠ Status.OK := by rw [hwb]; decide
      rw [flushLoop]
      simp only [sendFinishedSignal_fst, hwb]
      rw [if_neg (by decide : ¬(Status.WOULD_BLOCK = Status.OK))]
      refine ⟨rfl, by simp, ?_⟩
      rw [sendFinishedSignal_sentList, if_neg hne]
      simp
  | succ i ih =>
    intro q s hlen htake hwb
    rcases q with _ | ⟨f, rest⟩
    · simp at hlen
    · rcases hs : s.sendResp with _ | ⟨st, resp1⟩
      · rw [hs] at htake
        simp at htake
      · rw [hs] at htake
        simp only [List.replicate_succ, List.take_succ_cons, List.cons.injEq] at htake
        have hok : s.sendResp.headD Status.OK = Status.OK := by rw [hs, htake.1]; rfl
        rw [flushLoop]
        simp only [sendFinishedSignal_fst, hok, ite_true]
        have hresp : (sendFinishedSignal f.seq f.handled s).2.sendResp = resp1 := by
          rw [sendFinishedSignal_resp, hs]
          rfl
        have hwb1 : ((sendFinishedSignal f.seq f.handled s).2.sendResp.drop i).headD
            Status.OK = Status.WOULD_BLOCK := by
          rw [hresp]
          rw [hs] at hwb
          simpa using hwb
        obtain ⟨h1, h2, h3⟩ := ih rest (sendFinishedSignal f.seq f.handled s).2
          (by simpa using Nat.lt_of_succ_lt_succ hlen)
          (by rw [hresp]; exact htake.2) hwb1
        refine ⟨h1, by simpa using h2, ?_⟩
        rw [h3, sendFinishedSignal_sentList, hok]
        simp [List.take_succ_cons]

@[simp]
theorem sentList_set_queue (s : Sys) (q : List Finish) :
    sentList { s with recv := { s.recv with mFinishQueue := q } } = sentList s := rfl

@[simp]
theorem sentList_setFdEvents (e : Nat) (s : Sys) :
    sentList (setFdEvents e s) = sentList s := by
  unfold sentList
  rw [setFdEvents_sendLog]

/-- Claim C4: finishInputEvent(sequence, handled) first attempts a direct
synchronous send (the attempt is always recorded, with the transport's
response); when the transport returns WOULD_BLOCK it appends the Finish
Record to the queue, registers read+write interest with the loop only if
the queue was previously empty (and only if that mask was not already
set, since setFdEvents is change-detecting), and reports OK to the
caller; any other transport error is returned unmodified. -/
theorem finishInputEvent_enqueue_or_send (seq : Nat) (handled : Bool) (s : Sys) :
    (finishInputEvent seq handled s).1 =
      (if s.sendResp.headD Status.OK = Status.WOULD_BLOCK then Status.OK
       else s.sendResp.headD Status.OK) ∧
    (finishInputEvent seq handled s).2.sendLog =
      s.sendLog ++ [SendAttempt.mk seq handled (s.sendResp.headD Status.OK)] ∧
    (finishInputEvent seq handled s).2.recv.mFinishQueue =
      (if s.sendResp.headD Status.OK = Status.WOULD_BLOCK
       then s.recv.mFinishQueue ++ [Finish.mk seq handled]
       else s.recv.mFinishQueue) ∧
    (finishInputEvent seq handled s).2.recv.mFdEvents =
      (if s.sendResp.headD Status.OK = Status.WOULD_BLOCK ∧ s.recv.mFinishQueue = []
       then ALOOPER_EVENT_INPUT ||| ALOOPER_EVENT_OUTPUT
       else s.recv.mFdEvents) ∧
    (finishInputEvent seq handled s).2.looperLog =
      (if s.sendResp.headD Status.OK = Status.WOULD_BLOCK ∧ s.recv.mFinishQueue = [] ∧
          s.recv.mFdEvents ≠ (ALOOPER_EVENT_INPUT ||| ALOOPER_EVENT_OUTPUT)
       then s.looperLog ++ [LooperOp.addFd (ALOOPER_EVENT_INPUT ||| ALOOPER_EVENT_OUTPUT)]
       else s.looperLog) :=
  ⟨finishInputEvent_status seq handled s, finishInputEvent_sendLog seq handled s,
    finishInputEvent_queue seq handled s, finishInputEvent_fd seq handled s,
    finishInputEvent_looperLog seq handled s⟩

/-- Claim C5: the write-readiness flush walks the Acknowledgement Queue from the
front in insertion order and stops at the first record the transport does
not accept.  First conjunct: if the transport accepts the first i records
and then reports WOULD_BLOCK, the flush returns 1 (retry later), exactly
the sent prefix is removed (the blocking record and all later ones stay),
the registered interest mask is untouched (write-readiness stays
registered, no looper call is made), and exactly that prefix reaches the
transport in order.  Second conjunct: if every record sends, the queue is
cleared and interest is downgraded to read-only. -/
theorem flush_stops_at_first_failure :
    (∀ (s : Sys) (i : Nat), i < s.recv.mFinishQueue.length →
        s.sendResp.take i = List.replicate i Status.OK →
        (s.sendResp.drop i).headD Status.OK = Status.WOULD_BLOCK →
        (handleOutput s).1 = 1 ∧
        (handleOutput s).2.recv.mFinishQueue = s.recv.mFinishQueue.drop i ∧
        (handleOutput s).2.recv.mFdEvents = s.recv.mFdEvents ∧
        (handleOutput s).2.looperLog = s.looperLog ∧
        sentList (handleOutput s).2 =
          sentList s ++ (s.recv.mFinishQueue.take i).map (fun f => (f.seq, f.handled))) ∧
    (∀ s : Sys,
        s.sendResp.take s.recv.mFinishQueue.length =
          List.replicate s.recv.mFinishQueue.length Status.OK →
        (handleOutput s).1 = 1 ∧
        (handleOutput s).2.recv.mFinishQueue = [] ∧
        (handleOutput s).2.recv.mFdEvents = ALOOPER_EVENT_INPUT ∧
        sentList (handleOutput s).2 =
          sentList s ++ s.recv.mFinishQueue.map (fun f => (f.seq, f.handled))) := by
  constructor
  · intro s i hlen htake hwb
    obtain ⟨h1, h2, h3⟩ := flushLoop_wb i s.recv.mFinishQueue s hlen htake hwb
    refine ⟨?_, ?_, ?_, ?_, ?_⟩
    · simp [handleOutput, h1]
    · simp [handleOutput, h1, h2]
    · simp [handleOutput, h1, flushLoop_recv]
    · simp [handleOutput, h1, flushLoop_looperLog]
    · have hgoal : sentList (handleOutput s).2 =
          sentList (flushLoop s.recv.mFinishQueue s).2.2 := by
        simp only [handleOutput, h1]
        rfl
      rw [hgoal, h3]
  · intro s htake
    obtain ⟨h1, h2, h3⟩ := flushLoop_allOK s.recv.mFinishQueue s htake
    refine ⟨?_, ?_, ?_, ?_⟩ <;> simp [handleOutput, h1, h3]

/-- Claim C5 witness: a queue [(1, true), (2, false)] whose first record the
transport accepts and whose second blocks, and a queue whose single record
sends. -/
theorem flush_stops_at_first_failure_witness :
    ((1 : Nat) <
        (Sys.mk (ReceiverState.mk false 3 [Finish.mk 1 true, Finish.mk 2 false] (-1) (-1))
          [Status.OK, Status.WOULD_BLOCK] [] [] [] (some 3)).recv.mFinishQueue.length ∧
      (handleOutput
          (Sys.mk (ReceiverState.mk false 3 [Finish.mk 1 true, Finish.mk 2 false] (-1) (-1))
            [Status.OK, Status.WOULD_BLOCK] [] [] [] (some 3))).2.recv.mFinishQueue =
        [Finish.mk 2 false]) ∧
    (handleOutput
        (Sys.mk (ReceiverState.mk false 3 [Finish.mk 5 true] (-1) (-1))
          [Status.OK] [] [] [] (some 3))).2.recv.mFdEvents = ALOOPER_EVENT_INPUT := by
  refine ⟨⟨by decide, ?_⟩, ?_⟩
  · have h := (flush_stops_at_first_failure.1
      (Sys.mk (ReceiverState.mk false 3 [Finish.mk 1 true, Finish.mk 2 false] (-1) (-1))
        [Status.OK, Status.WOULD_BLOCK] [] [] [] (some 3))
      1 (by decide) (by decide) (by decide))
    rw [h.2.1]
    decide
  · exact (flush_stops_at_first_failure.2
      (Sys.mk (ReceiverState.mk false 3 [Finish.mk 5 true] (-1) (-1))
        [Status.OK] [] [] [] (some 3)) (by decide)).2.2.1

/-- Claim C7: dispose() is idempotent: a second dispose is a no-op on the whole
state, and across both calls at most one removeFd is issued to the
readiness loop. -/
theorem dispose_idempotent (s : Sys) :
    dispose (dispose s) = dispose s ∧
    countRemoveFd (dispose (dispose s)).looperLog ≤ countRemoveFd s.looperLog + 1 := by
  have hfd : (dispose s).recv.mFdEvents = 0 := setFdEvents_fd 0 s
  have h1 : dispose (dispose s) = dispose s := by
    show setFdEvents 0 (dispose s) = dispose s
    unfold setFdEvents
    rw [if_neg]
    simp [hfd]
  refine ⟨h1, ?_⟩
  rw [h1]
  show countRemoveFd (setFdEvents 0 s).looperLog ≤ countRemoveFd s.looperLog + 1
  rw [setFdEvents_log]
  split_ifs <;> simp [countRemoveFd, List.countP_append]

/-- Claim C2 counterexample: acknowledgements do NOT always reach the transport
in request order.  Sequence 5 is requested first but its direct send
blocks and it is queued; sequence 6 is requested next and its direct send
is accepted by the transport, so the transport sees 6 before 5 (5 is sent
by the subsequent write-readiness flush).  Requested order: 5, 6;
transport order: 6, 5. -/
theorem ack_fifo_violation_cex :
    sentList (run [Op.opFinish 5 true, Op.opFinish 6 true, Op.opHandle 2 true []]
      (startSys [Status.WOULD_BLOCK, Status.OK, Status.OK])) = [(6, true), (5, true)] := by
  decide

/-- Claim C2 amended: FIFO holds within the Acknowledgement Queue.  Every
write-readiness flush removes a prefix of the queue and sends exactly
that prefix, in queue order, to the transport; and a finishInputEvent
whose direct send blocks appends its record at the tail.  (The claim's
global request-order FIFO fails because a later finishInputEvent's direct
send can be accepted while earlier records are still queued — see the
counterexample.) -/
theorem flush_preserves_queue_order :
    (∀ s : Sys, ∃ k,
        (handleOutput s).2.recv.mFinishQueue = s.recv.mFinishQueue.drop k ∧
        sentList (handleOutput s).2 =
          sentList s ++ (s.recv.mFinishQueue.take k).map (fun f => (f.seq, f.handled))) ∧
    (∀ (seq : Nat) (handled : Bool) (s : Sys),
        (finishInputEvent seq handled s).2.recv.mFinishQueue =
          (if s.sendResp.headD Status.OK = Status.WOULD_BLOCK
           then s.recv.mFinishQueue ++ [Finish.mk seq handled]
           else s.recv.mFinishQueue)) := by
  constructor
  · intro s
    obtain ⟨k, hk, hdrop, hsent, hall⟩ := flushLoop_prefix s.recv.mFinishQueue s
    rcases hres : (flushLoop s.recv.mFinishQueue s).1 with _ | st
    · refine ⟨k, ?_, ?_⟩
      · simp [handleOutput, hres, hall hres, List.drop_length]
      · simp only [handleOutput, hres]
        simpa using hsent
    · refine ⟨k, ?_, ?_⟩
      · simp only [handleOutput, hres]
        split_ifs <;> simpa using hdrop
      · simp only [handleOutput, hres]
        split_ifs <;> simpa using hsent
  · exact finishInputEvent_queue

theorem finishInputEvent_sendLog_ext (seq : Nat) (handled : Bool) (t : Sys) :
    ∃ l, (finishInputEvent seq handled t).2.sendLog = t.sendLog ++ l :=
  ⟨_, finishInputEvent_sendLog seq handled t⟩

theorem consumeLoop_sendLog_ext (alive hasOut : Bool) :
    ∀ (results : List ConsumeResult) (skip consumed : Bool) (s : Sys)
      (st : Status) (c : Bool) (s' : Sys),
      consumeLoop alive hasOut results skip consumed s = some (st, c, s') →
      ∃ l, s'.sendLog = s.sendLog ++ l := by
  intro results
  induction results with
  | nil =>
    intro skip consumed s st c s' h
    simp [consumeLoop] at h
  | cons r rest ih =>
    intro skip consumed s st c s' h
    cases r with
    | err st2 =>
      simp only [consumeLoop] at h
      split_ifs at h <;>
        · simp only [Option.some.injEq, Prod.mk.injEq] at h
          obtain ⟨-, -, rfl⟩ := h
          exact ⟨[], by simp⟩
    | wouldBlock pending source throws =>
      simp only [consumeLoop] at h
      split_ifs at h <;>
        · simp only [Option.some.injEq, Prod.mk.injEq] at h
          obtain ⟨-, -, rfl⟩ := h
          exact ⟨[], by simp⟩
    | ok item =>
      simp only [consumeLoop] at h
      by_cases ha : alive = false
      · rw [if_pos ha] at h
        simp only [Option.some.injEq, Prod.mk.injEq] at h
        obtain ⟨-, -, rfl⟩ := h
        exact ⟨[], by simp⟩
      · rw [if_neg ha] at h
        by_cases hs : skip
        · rw [if_pos hs] at h
          obtain ⟨l, hl⟩ := ih _ _ _ _ _ _ h
          rw [autoFinish_sendLog, motionInfoStep_sendLog, List.append_assoc] at hl
          exact ⟨_, hl⟩
        · rw [if_neg hs] at h
          rcases hev : item.event with _ | isMove | ⟨hasFocus, inTouchMode⟩ <;> simp only [hev] at h
          · by_cases hb : item.buildFails
            · rw [if_pos hb] at h
              obtain ⟨l, hl⟩ := ih _ _ _ _ _ _ h
              rw [autoFinish_sendLog, motionInfoStep_sendLog, List.append_assoc] at hl
              exact ⟨_, hl⟩
            · rw [if_neg hb] at h
              by_cases ht : item.dispatchThrows
              · rw [if_pos ht] at h
                obtain ⟨l, hl⟩ := ih _ _ _ _ _ _ h
                rw [autoFinish_sendLog] at hl
                rw [show ((motionInfoStep item s).sendLog ++
                    [SendAttempt.mk item.seq false
                      ((motionInfoStep item s).sendResp.headD Status.OK)]) ++ l =
                    s.sendLog ++
                      (SendAttempt.mk item.seq false
                        ((motionInfoStep item s).sendResp.headD Status.OK) :: l) by
                  rw [motionInfoStep_sendLog]
                  simp] at hl
                exact ⟨_, hl⟩
              · rw [if_neg ht] at h
                obtain ⟨l, hl⟩ := ih _ _ _ _ _ _ h
                rw [motionInfoStep_sendLog] at hl
                exact ⟨l, hl⟩
          · by_cases hb : item.buildFails
            · rw [if_pos hb] at h
              obtain ⟨l, hl⟩ := ih _ _ _ _ _ _ h
              rw [autoFinish_sendLog, motionInfoStep_sendLog, List.append_assoc] at hl
              exact ⟨_, hl⟩
            · rw [if_neg hb] at h
              by_cases ht : item.dispatchThrows
              · rw [if_pos ht] at h
                obtain ⟨l, hl⟩ := ih _ _ _ _ _ _ h
                rw [autoFinish_sendLog] at hl
                rw [show ((motionInfoStep item s).sendLog ++
                    [SendAttempt.mk item.seq false
                      ((motionInfoStep item s).sendResp.headD Status.OK)]) ++ l =
                    s.sendLog ++
                      (SendAttempt.mk item.seq false
                        ((motionInfoStep item s).sendResp.headD Status.OK) :: l) by
                  rw [motionInfoStep_sendLog]
                  simp] at hl
                exact ⟨_, hl⟩
              · rw [if_neg ht] at h
                obtain ⟨l, hl⟩ := ih _ _ _ _ _ _ h
                rw [motionInfoStep_sendLog] at hl
                exact ⟨l, hl⟩
          · simp only [Option.some.injEq, Prod.mk.injEq] at h
            obtain ⟨-, -, rfl⟩ := h
            obtain ⟨l, hl⟩ := finishInputEvent_sendLog_ext item.seq true
              { motionInfoStep item s with
                callLog := (motionInfoStep item s).callLog ++
                  [JCall.onFocusEvent hasFocus inTouchMode] }
            rw [show ({ motionInfoStep item s with
                callLog := (motionInfoStep item s).callLog ++
                  [JCall.onFocusEvent hasFocus inTouchMode] } : Sys).sendLog =
                s.sendLog from motionInfoStep_sendLog item s] at hl
            exact ⟨l, hl⟩

theorem consumeLoop_inv (alive hasOut : Bool) :
    ∀ (results : List ConsumeResult) (skip consumed : Bool) (s : Sys)
      (st : Status) (c : Bool) (s' : Sys),
      consumeLoop alive hasOut results skip consumed s = some (st, c, s') →
      queueFdInv s → queueFdInv s' := by
  intro results
  induction results with
  | nil =>
    intro skip consumed s st c s' h
    simp [consumeLoop] at h
  | cons r rest ih =>
    intro skip consumed s st c s' h hinv
    cases r with
    | err st2 =>
      simp only [consumeLoop] at h
      split_ifs at h <;>
        · simp only [Option.some.injEq, Prod.mk.injEq] at h
          obtain ⟨-, -, rfl⟩ := h
          exact hinv
    | wouldBlock pending source throws =>
      simp only [consumeLoop] at h
      split_ifs at h <;>
        · simp only [Option.some.injEq, Prod.mk.injEq] at h
          obtain ⟨-, -, rfl⟩ := h
          simp_all [queueFdInv]
    | ok item =>
      simp only [consumeLoop] at h
      by_cases ha : alive = false
      · rw [if_pos ha] at h
        simp only [Option.some.injEq, Prod.mk.injEq] at h
        obtain ⟨-, -, rfl⟩ := h
        exact hinv
      · rw [if_neg ha] at h
        have hstep : ∀ t : Sys, queueFdInv t → queueFdInv (autoFinish item.seq (motionInfoStep item t)) := by
          intro t ht
          simp_all [queueFdInv]
        by_cases hs : skip
        · rw [if_pos hs] at h
          exact ih _ _ _ _ _ _ h (hstep s hinv)
        · rw [if_neg hs] at h
          rcases hev : item.event with _ | isMove | ⟨hasFocus, inTouchMode⟩ <;> simp only [hev] at h
          · by_cases hb : item.buildFails
            · rw [if_pos hb] at h
              exact ih _ _ _ _ _ _ h (hstep s hinv)
            · rw [if_neg hb] at h
              by_cases ht : item.dispatchThrows
              · rw [if_pos ht] at h
                refine ih _ _ _ _ _ _ h ?_
                simp_all [queueFdInv]
              · rw [if_neg ht] at h
                refine ih _ _ _ _ _ _ h ?_
                simp_all [queueFdInv]
          · by_cases hb : item.buildFails
            · rw [if_pos hb] at h
              exact ih _ _ _ _ _ _ h (hstep s hinv)
            · rw [if_neg hb] at h
              by_cases ht : item.dispatchThrows
              · rw [if_pos ht] at h
                refine ih _ _ _ _ _ _ h ?_
                simp_all [queueFdInv]
              · rw [if_neg ht] at h
                refine ih _ _ _ _ _ _ h ?_
                simp_all [queueFdInv]
          · simp only [Option.some.injEq, Prod.mk.injEq] at h
            obtain ⟨-, -, rfl⟩ := h
            refine finishInputEvent_inv _ _ _ ?_
            simp_all [queueFdInv]

theorem consumeLoop_skip_drain (hasOut : Bool) :
    ∀ (items : List ConsumeItem) (pending : Bool) (source : Int)
      (throws consumed : Bool) (s : Sys),
      ∃ s', consumeLoop true hasOut
          (items.map ConsumeResult.ok ++ [ConsumeResult.wouldBlock pending source throws])
          true consumed s = some (Status.OK, consumed, s') ∧
        ∀ it ∈ items, ∃ r, SendAttempt.mk it.seq false r ∈ s'.sendLog := by
  intro items
  induction items with
  | nil =>
    intro pending source throws consumed s
    refine ⟨s, ?_, by simp⟩
    simp [consumeLoop]
  | cons it items ih =>
    intro pending source throws consumed s
    obtain ⟨s', heq, hmem⟩ :=
      ih pending source throws consumed (autoFinish it.seq (motionInfoStep it s))
    refine ⟨s', ?_, ?_⟩
    · simp only [List.map_cons, List.cons_append, consumeLoop]
      simpa using heq
    · intro it2 hit2
      rcases List.mem_cons.mp hit2 with rfl | hit2
      · obtain ⟨l, hl⟩ := consumeLoop_sendLog_ext true hasOut _ _ _ _ _ _ _ heq
        refine ⟨(motionInfoStep it2 s).sendResp.headD Status.OK, ?_⟩
        rw [hl, autoFinish_sendLog]
        simp
      · exact hmem it2 hit2

/-- Claim C1 counterexample: an event whose handler callback fails is NOT always
eventually acknowledged.  The handler throws for sequence 1, entering
skip-state; the auto-finish's direct send returns WOULD_BLOCK and its
result is discarded (consumeEvents line 378), so the acknowledgement is
neither sent (sentList is empty) nor queued (the Acknowledgement Queue is
empty), and the call returns OK with the event permanently
unacknowledged. -/
theorem handler_fail_ack_dropped_cex :
    (consumeEvents false true false
        [ConsumeResult.ok (ConsumeItem.mk 1 InputEventT.key (-1) (-1) false false true),
         ConsumeResult.wouldBlock false 0 false]
        (startSys [Status.WOULD_BLOCK])).map
      (fun out => (out.1, sentList out.2.2, out.2.2.recv.mFinishQueue, out.2.2.sendLog)) =
      some (Status.OK, [], [], [SendAttempt.mk 1 false Status.WOULD_BLOCK]) := by
  decide

/-- Claim C1 amended: for every event handled while skip-state is active (or
whose own callback failure enters it), consumeEvents attempts a direct
acknowledgement send with handled=false, but the result of that send is
discarded: the acknowledgement reaches the transport exactly when the
transport returns OK at that moment, and on WOULD_BLOCK it is dropped
without being queued.  First conjunct: the auto-finish leaves the
receiver state (in particular the Acknowledgement Queue) untouched,
records the attempt, and the ack is sent iff the transport accepted it.
Second conjunct: in a skip-state drain, every drained event gets such an
attempt recorded. -/
theorem skip_autofinish_attempted :
    (∀ (seq : Nat) (s : Sys),
        (autoFinish seq s).recv = s.recv ∧
        (autoFinish seq s).sendLog =
          s.sendLog ++ [SendAttempt.mk seq false (s.sendResp.headD Status.OK)] ∧
        sentList (autoFinish seq s) =
          sentList s ++
            (if s.sendResp.headD Status.OK = Status.OK then [(seq, false)] else [])) ∧
    (∀ (hasOut : Bool) (items : List ConsumeItem) (pending : Bool) (source : Int)
        (throws consumed : Bool) (s : Sys),
        ∃ s', consumeLoop true hasOut
            (items.map ConsumeResult.ok ++ [ConsumeResult.wouldBlock pending source throws])
            true consumed s = some (Status.OK, consumed, s') ∧
          ∀ it ∈ items, ∃ r, SendAttempt.mk it.seq false r ∈ s'.sendLog) := by
  constructor
  · intro seq s
    exact ⟨rfl, rfl, sendFinishedSignal_sentList seq false s⟩
  · intro hasOut
    exact consumeLoop_skip_drain hasOut

/-- Claim C1 witness: a one-event skip-state drain; the attempt for sequence 2
is recorded. -/
theorem skip_autofinish_attempted_witness :
    ∃ s', consumeLoop true false
        ([ConsumeItem.mk 2 InputEventT.key (-1) (-1) false false false].map
            ConsumeResult.ok ++ [ConsumeResult.wouldBlock false 0 false])
        true false (startSys []) = some (Status.OK, false, s') ∧
      ∃ r, SendAttempt.mk 2 false r ∈ s'.sendLog := by
  obtain ⟨s', heq, hmem⟩ := skip_autofinish_attempted.2 false
    [ConsumeItem.mk 2 InputEventT.key (-1) (-1) false false false] false 0 false false
    (startSys [])
  exact ⟨s', heq,
    hmem (ConsumeItem.mk 2 InputEventT.key (-1) (-1) false false false) (by simp)⟩

/-- Claim C3 counterexample: a Focus event IS subject to skip-state.  The
handler throws for sequence 1, entering skip-state; the following Focus
event gets no onFocusEvent callback (the count of focus callbacks is 0),
is auto-finished with handled=false (not true), and the loop continues to
the next consume result instead of returning immediately. -/
theorem focus_skip_state_cex :
    (consumeEvents false true false
        [ConsumeResult.ok (ConsumeItem.mk 1 InputEventT.key (-1) (-1) false false true),
         ConsumeResult.ok
           (ConsumeItem.mk 2 (InputEventT.focus true true) (-1) (-1) false false false),
         ConsumeResult.wouldBlock false 0 false]
        (startSys [Status.OK, Status.OK])).map
      (fun out => (out.1,
        out.2.2.callLog.countP
          (fun c => match c with | JCall.onFocusEvent _ _ => true | _ => false),
        out.2.2.sendLog.map (fun a => (a.seq, a.handled)))) =
      some (Status.OK, 0, [(1, false), (2, false)]) := by
  decide

/-- Claim C3 amended: when skip-state is NOT active, a Focus event is handled
exactly as the claim says: onFocusEvent(hasFocus, inTouchMode) is invoked
(the only callback made for it — no generic dispatch), the event is
immediately auto-finished with handled=true through finishInputEvent, and
the call returns OK without consuming any further results (the remaining
results `rest` are untouched).  When skip-state is active a Focus event
is instead auto-finished handled=false like any other skipped event (see
the counterexample). -/
theorem focus_event_fast_path (seq : Nat) (hasFocus inTouchMode flg : Bool) (t n : Int)
    (bf dt : Bool) (rest : List ConsumeResult) (hasOut consumed : Bool) (s : Sys) :
    consumeLoop true hasOut
        (ConsumeResult.ok
            (ConsumeItem.mk seq (InputEventT.focus hasFocus inTouchMode) t n flg bf dt) ::
          rest)
        false consumed s =
      some (Status.OK, consumed,
        (finishInputEvent seq true
          { motionInfoStep
              (ConsumeItem.mk seq (InputEventT.focus hasFocus inTouchMode) t n flg bf dt) s with
            callLog :=
              (motionInfoStep
                (ConsumeItem.mk seq (InputEventT.focus hasFocus inTouchMode) t n flg bf dt)
                s).callLog ++ [JCall.onFocusEvent hasFocus inTouchMode] }).2) := by
  rfl

/-- Claim C8 counterexample: the batch-pending notification additionally
requires that skip-state is inactive, which the claim omits.  The handler
throws for sequence 1 (skip-state); the call then hits WOULD_BLOCK with
the receiver alive, no batch-notification sent since the last clear
(the flag was never set), and the transport reporting a pending batch —
yet onBatchedInputEventPending is not invoked (count 0) and the pending
flag stays false. -/
theorem batch_pending_skip_cex :
    (consumeEvents false true false
        [ConsumeResult.ok (ConsumeItem.mk 1 InputEventT.key (-1) (-1) false false true),
         ConsumeResult.wouldBlock true 7 false]
        (startSys [Status.OK])).map
      (fun out => (out.1,
        out.2.2.callLog.countP
          (fun c => match c with | JCall.onBatchedInputEventPending _ => true | _ => false),
        out.2.2.recv.mBatchedInputEventPending)) =
      some (Status.OK, 0, false) := by
  decide

/-- Claim C8 amended: when consumeEvents hits WOULD_BLOCK with the receiver
alive, skip-state INACTIVE, the pending flag clear, and a pending batch
reported, it invokes onBatchedInputEventPending exactly once (exactly one
callback is appended) and sets the pending flag; if the callback throws
the flag ends up false again so a later call retries; the call returns
OK.  Second conjunct: a consumeBatches call clears the pending flag at
its start, before anything else. -/
theorem batch_pending_notification :
    (∀ (source : Int) (throws : Bool) (rest : List ConsumeResult)
        (hasOut consumed : Bool) (s : Sys),
        consumeLoop true hasOut (ConsumeResult.wouldBlock true source throws :: rest)
            false consumed (clearPending s) =
          some (Status.OK, consumed,
            { s with
              recv := { s.recv with mBatchedInputEventPending := !throws },
              callLog := s.callLog ++ [JCall.onBatchedInputEventPending source] })) ∧
    (∀ (alive hasOut : Bool) (results : List ConsumeResult) (s : Sys),
        consumeEvents true alive hasOut results s =
          consumeLoop alive hasOut results false false (clearPending s)) := by
  constructor
  · intro source throws rest hasOut consumed s
    cases throws <;> rfl
  · intro alive hasOut results s
    rfl

/-- Claim C9: for a consume result carrying a motion sub-kind (flag set), the
dispatchMotionEventInfo notification is suppressed exactly when
(motionEventType, touchMoveNum) equals the remembered
Last-Motion-Signature, and after the step the signature always equals the
event's pair (it is updated on every change).  Second conjunct: the
sub-kind sequence (1,0), (1,0), (1,1), (2,0) from the initial signature
(-1,-1) produces exactly 3 notifications. -/
theorem motion_info_suppression :
    (∀ (seq : Nat) (ev : InputEventT) (t n : Int) (bf dt : Bool) (s : Sys),
        (motionInfoStep (ConsumeItem.mk seq ev t n true bf dt) s).callLog =
          (if s.recv.mLastMotionEventType = t ∧ s.recv.mLastTouchMoveNum = n
           then s.callLog
           else s.callLog ++ [JCall.dispatchMotionEventInfo t n]) ∧
        (motionInfoStep (ConsumeItem.mk seq ev t n true bf dt) s).recv.mLastMotionEventType
          = t ∧
        (motionInfoStep (ConsumeItem.mk seq ev t n true bf dt) s).recv.mLastTouchMoveNum
          = n) ∧
    ((consumeEvents false true false
        [ConsumeResult.ok (ConsumeItem.mk 1 InputEventT.key 1 0 true false false),
         ConsumeResult.ok (ConsumeItem.mk 2 InputEventT.key 1 0 true false false),
         ConsumeResult.ok (ConsumeItem.mk 3 InputEventT.key 1 1 true false false),
         ConsumeResult.ok (ConsumeItem.mk 4 InputEventT.key 2 0 true false false),
         ConsumeResult.wouldBlock false 0 false]
        (startSys [])).map
      (fun out => out.2.2.callLog.countP
        (fun c => match c with | JCall.dispatchMotionEventInfo _ _ => true | _ => false)) =
      some 3) := by
  constructor
  · intro seq ev t n bf dt s
    unfold motionInfoStep
    by_cases h : s.recv.mLastMotionEventType = t ∧ s.recv.mLastTouchMoveNum = n
    · rw [if_neg (by simp [h.1, h.2])]
      rw [if_pos h]
      exact ⟨rfl, h.1, h.2⟩
    · rw [if_pos ⟨rfl, not_and_or.mp h⟩]
      rw [if_neg h]
      exact ⟨rfl, rfl, rfl⟩
  · decide

/-- Claim C10: on a read-readiness notification (no error/hangup bits, input bit
set), the callback keeps the loop registration (returns 1) exactly when
consumeEvents returned OK or NO_MEMORY; every other status — including
DEAD_OBJECT from a finalized receiver — makes it return 0, removing the
callback from the readiness loop. -/
theorem input_readiness_keep_iff (events : Nat) (alive : Bool)
    (results : List ConsumeResult) (s : Sys)
    (h1 : events &&& (ALOOPER_EVENT_ERROR ||| ALOOPER_EVENT_HANGUP) = 0)
    (h2 : events &&& ALOOPER_EVENT_INPUT ≠ 0)
    (st : Status) (c : Bool) (s' : Sys)
    (hc : consumeEvents false alive false results s = some (st, c, s')) :
    (handleEvent events alive results s = some (1, s') ↔
      (st = Status.OK ∨ st = Status.NO_MEMORY)) ∧
    (¬(st = Status.OK ∨ st = Status.NO_MEMORY) →
      handleEvent events alive results s = some (0, s')) := by
  unfold handleEvent
  rw [if_neg (by simp [h1]), if_pos h2, hc]
  by_cases hok : st = Status.OK ∨ st = Status.NO_MEMORY
  · simp [hok]
  · simp [hok]

/-- Claim C10 witness: a finalized receiver (dead weak reference) yields
DEAD_OBJECT, which is neither OK nor NO_MEMORY, and the callback is
removed (returns 0). -/
theorem input_readiness_keep_iff_witness :
    ¬(Status.DEAD_OBJECT = Status.OK ∨ Status.DEAD_OBJECT = Status.NO_MEMORY) ∧
    handleEvent 1 false [ConsumeResult.wouldBlock false 0 false] (startSys []) =
      some (0, startSys []) := by
  refine ⟨by decide, ?_⟩
  exact (input_readiness_keep_iff 1 false [ConsumeResult.wouldBlock false 0 false]
    (startSys []) (by decide) (by decide) Status.DEAD_OBJECT false (startSys [])
    (by decide)).2 (by decide)

theorem handleOutput_inv (s : Sys) (h : queueFdInv s) : queueFdInv (handleOutput s).2 := by
  rcases hres : (flushLoop s.recv.mFinishQueue s).1 with _ | st
  · have h2 : (handleOutput s).2 = setFdEvents ALOOPER_EVENT_INPUT
        { (flushLoop s.recv.mFinishQueue s).2.2 with
          recv := { (flushLoop s.recv.mFinishQueue s).2.2.recv with mFinishQueue := [] } } := by
      simp only [handleOutput, hres]
    rw [h2]
    unfold queueFdInv
    rw [setFdEvents_queue, setFdEvents_fd]
    exact iff_of_true rfl (by decide)
  · obtain ⟨hrem, hq⟩ := flushLoop_stopped s.recv.mFinishQueue s st hres
    have h2 : (handleOutput s).2 = { (flushLoop s.recv.mFinishQueue s).2.2 with
        recv := { (flushLoop s.recv.mFinishQueue s).2.2.recv with
          mFinishQueue := (flushLoop s.recv.mFinishQueue s).2.1 } } := by
      simp only [handleOutput, hres]
      split_ifs <;> rfl
    have hfd : ¬(s.recv.mFdEvents &&& ALOOPER_EVENT_OUTPUT = 0) := fun hc => hq (h.mpr hc)
    rw [h2]
    unfold queueFdInv
    refine iff_of_false hrem ?_
    show ¬((flushLoop s.recv.mFinishQueue s).2.2.recv.mFdEvents &&& ALOOPER_EVENT_OUTPUT = 0)
    rw [flushLoop_recv]
    exact hfd

theorem clearPending_inv (s : Sys) (h : queueFdInv s) : queueFdInv (clearPending s) := h

theorem step_inv (o : Op) (s : Sys) (ho : o ≠ Op.opDispose) (h : queueFdInv s) :
    queueFdInv (step o s) := by
  cases o with
  | opFinish seq handled => exact finishInputEvent_inv seq handled s h
  | opHandle events alive results =>
    have key : ∀ ret s2, handleEvent events alive results s = some (ret, s2) →
        queueFdInv s2 := by
      intro ret s2 hhe
      unfold handleEvent at hhe
      split_ifs at hhe with he1 he2 he3
      · simp only [Option.some.injEq, Prod.mk.injEq] at hhe
        obtain ⟨-, rfl⟩ := hhe
        exact h
      · rcases hce : consumeEvents false alive false results s with _ | ⟨st, c, s3⟩
        · rw [hce] at hhe
          simp at hhe
        · rw [hce] at hhe
          simp only [Option.map_some', Option.some.injEq, Prod.mk.injEq] at hhe
          obtain ⟨-, rfl⟩ := hhe
          unfold consumeEvents at hce
          exact consumeLoop_inv alive false results false false _ st c s3 hce
            (by rw [if_neg (by decide)]; exact h)
      · simp only [Option.some.injEq] at hhe
        have hs2 : s2 = (handleOutput s).2 := by rw [hhe]
        rw [hs2]
        exact handleOutput_inv s h
      · simp only [Option.some.injEq, Prod.mk.injEq] at hhe
        obtain ⟨-, rfl⟩ := hhe
        exact h
    simp only [step]
    rcases hhe : handleEvent events alive results s with _ | ⟨ret, s2⟩ <;>
      simp only [hhe]
    · exact h
    · have hs2 := key ret s2 hhe
      split_ifs <;> exact hs2
  | opConsume cb alive hasOut results =>
    simp only [step]
    rcases hce : consumeEvents cb alive hasOut results s with _ | ⟨st, c, s2⟩ <;>
      simp only [hce]
    · exact h
    · unfold consumeEvents at hce
      have hstart : queueFdInv (if cb = true then clearPending s else s) := by
        split_ifs
        · exact clearPending_inv s h
        · exact h
      exact consumeLoop_inv alive hasOut results false false _ st c s2 hce hstart
  | opDispose => exact absurd rfl ho

theorem run_inv : ∀ (ops : List Op) (s : Sys), Op.opDispose ∉ ops → queueFdInv s →
    queueFdInv (run ops s) := by
  intro ops
  induction ops with
  | nil =>
    intro s _ h
    exact h
  | cons o rest ih =>
    intro s hno h
    exact ih (step o s) (fun hm => hno (List.mem_cons_of_mem o hm))
      (step_inv o s (fun ho => hno (ho ▸ List.mem_cons_self o rest)) h)

theorem startSys_inv (resp : List Status) : queueFdInv (startSys resp) := by
  unfold queueFdInv startSys initReceiver
  rw [setFdEvents_queue, setFdEvents_fd]
  exact iff_of_true rfl (by decide)

/-- Claim C6 counterexample: the queue/write-interest equivalence does NOT hold
at every point between public operations.  First: finishInputEvent hits
WOULD_BLOCK (queue [5], write interest registered), then dispose()
deregisters the descriptor but leaves the Finish Record queued, so after
dispose the queue is non-empty while no write-readiness interest is
registered with the loop.  Second: same queue, then a write-readiness
flush whose send fails hard (DEAD_OBJECT) — the callback returns 0 and
the loop drops the registration while the record stays queued. -/
theorem queue_interest_invariant_cex :
    ¬ queueLooperInv (run [Op.opFinish 5 true, Op.opDispose]
        (startSys [Status.WOULD_BLOCK])) ∧
    ¬ queueLooperInv (run [Op.opFinish 5 true, Op.opHandle 2 true []]
        (startSys [Status.WOULD_BLOCK, Status.DEAD_OBJECT])) := by
  constructor <;> decide

/-- Claim C6 amended: along every sequence of public operations that does not
include dispose, the Acknowledgement Queue is non-empty exactly when the
receiver's own registered interest mask (mFdEvents) includes
write-readiness.  (dispose clears the registration without clearing the
queue, and a callback removed by the loop after a hard flush error or
error/hangup leaves the loop-side registration gone while the mask and
queue still indicate write interest — see the counterexample.) -/
theorem queue_fd_interest_invariant (resp : List Status) (ops : List Op)
    (hnd : Op.opDispose ∉ ops) : queueFdInv (run ops (startSys resp)) :=
  run_inv ops (startSys resp) hnd (startSys_inv resp)

/-- Claim C6 witness: after a finishInputEvent that queues (WOULD_BLOCK), the
invariant holds: queue non-empty and write interest set. -/
theorem queue_fd_interest_invariant_witness :
    queueFdInv (run [Op.opFinish 5 true] (startSys [Status.WOULD_BLOCK])) :=
  queue_fd_interest_invariant [Status.WOULD_BLOCK] [Op.opFinish 5 true] (by decide)

end InputEventReceiver
